import Mathlib

/-!
# Verification of the Nemo statistical analysis engine

A shallow embedding of the statistical analysis engine of the Nemo
repository (`DataAnalyzer` in the backend services, plus the contingency
table builder of `GeminiService.performChiSquaredWithPostHoc`), together
with theorems settling the frozen claims about its specification.

Dataset values (`string | number | boolean | null`) are modelled by the
inductive `Value`; JS numbers are modelled by exact rationals `ℚ` (the
square roots appearing in standard deviations and correlation coefficients
are taken in `ℝ` and exposed as derived accessors, since `Real.sqrt` is
noncomputable).  A JS plain object used as a string-keyed map is modelled
by an insertion-ordered association list (`objGet?` / `objSet`), matching
JS property-write semantics; `jsObjectKeys` models the `Object.keys`
enumeration order (array-index keys in ascending numeric order first, then
the remaining keys in insertion order).  Functions that `throw` in the
source are embedded into `Except String`.
-/

namespace Nemo

/-- A dataset cell value: `string | number | boolean | null` of the TS
data model (`DataRow` maps column names to such values).  JS `undefined`
(a column absent from a row) is identified with `null`, which is how every
function modelled here treats it. -/
inductive Value where
  | str (s : String)
  | num (q : ℚ)
  | bool (b : Bool)
  | null
deriving DecidableEq, Repr

/-- A row record: total map from column names to values (the Dataset
invariant says every row has an entry, possibly null, for every column). -/
def Row : Type := String → Value

/-- The tabular dataset: ordered column names plus row records.  The
`id`/`name`/`metadata` fields of the TS `Dataset` are never read by the
analysis engine and are omitted. -/
structure Dataset where
  columns : List String
  rows : List Row

/-- The test `val !== null && typeof val === 'number'`, yielding the number. -/
def Value.asNum? : Value → Option ℚ
  | .num q => some q
  | _ => none

/-- The test `val === null` (also covering `undefined`, see `Value`). -/
def Value.isNull : Value → Bool
  | .null => true
  | _ => false

/-- The decimal digits of a natural number-free char list interpreted in
base 10; helper for the JS `Number()` model. -/
def digitsToNat (ds : List Char) : ℕ :=
  ds.foldl (fun n c => 10 * n + (c.toNat - 48)) 0

/-- Nonempty and all decimal digits. -/
def isDigits (ds : List Char) : Bool :=
  decide (ds ≠ []) && ds.all Char.isDigit

/-- The least `k` with `den ∣ 10 ^ k`, searched up to 400; `some k` exists
exactly for denominators of the form `2 ^ a * 5 ^ b` (every JS float is of
this form), and is found immediately for the small concrete values used
here. -/
def decExp? (den : ℕ) : Option ℕ :=
  (List.range 400).find? (fun k => 10 ^ k % den == 0)

/-- Model of JS number-to-string conversion (`val.toString()` /
`String(val)`).  Integers render as their decimal numeral; a number whose
reduced denominator divides a power of ten renders as its exact
terminating decimal (`3/2 ↦ "1.5"`), which agrees with JS for the
round-decimal values exercised here; other rationals (which do not arise
from JS floats) get an unambiguous non-numeric fallback. -/
def qToString (q : ℚ) : String :=
  if q.den = 1 then toString q.num
  else
    match decExp? q.den with
    | some k =>
      let frac := q.num.natAbs % q.den * 10 ^ k / q.den
      let fracStr := toString frac
      let pad := String.mk (List.replicate (k - fracStr.length) '0')
      (if q.num < 0 then "-" else "") ++ toString (q.num.natAbs / q.den) ++ "." ++ pad ++ fracStr
    | none => "q:" ++ toString q.num ++ "/" ++ toString q.den

/-- JS stringification of a non-null value, as used for frequency-map and
group keys (`val.toString()`, `String(val)`). -/
def Value.toKey : Value → String
  | .str s => s
  | .num q => qToString q
  | .bool b => if b then "true" else "false"
  | .null => ""

/-- Model of JS `Number(s)` on the plain decimal strings this system
produces as object keys: `""` converts to `0` (as in JS), an optionally
signed decimal numeral (with an optional fractional part) converts to its
value, and anything else is NaN, modelled as `none`.  (Exotic JS syntax
such as `"1."`, hex, or exponents never arises from `Value.toKey`.) -/
def jsNumberConv (s : String) : Option ℚ :=
  if s = "" then some 0
  else
    let (sign, body) : ℚ × String :=
      if s.startsWith "-" then (-1, s.drop 1)
      else if s.startsWith "+" then (1, s.drop 1)
      else (1, s)
    match body.splitOn "." with
    | [intPart] =>
      if isDigits intPart.toList then some (sign * digitsToNat intPart.toList) else none
    | [intPart, fracPart] =>
      if isDigits intPart.toList && isDigits fracPart.toList then
        some (sign * ((digitsToNat intPart.toList : ℚ) +
          (digitsToNat fracPart.toList : ℚ) / 10 ^ fracPart.length))
      else none
    | _ => none

/-! ## JS plain objects as string-keyed maps -/

/-- JS property read `obj[k]`: first (and only) binding of `k`. -/
def objGet? {α : Type} : List (String × α) → String → Option α
  | [], _ => none
  | (k', v) :: rest, k => if k' = k then some v else objGet? rest k

/-- JS property write `obj[k] = v`: overwrite in place if the key exists,
otherwise append (new keys enumerate after existing ones). -/
def objSet {α : Type} : List (String × α) → String → α → List (String × α)
  | [], k, v => [(k, v)]
  | (k', v') :: rest, k, v =>
    if k' = k then (k', v) :: rest else (k', v') :: objSet rest k v

/-- A string is a JS array index (canonical numeral of a natural below
`2^32 - 1`); such keys enumerate first, in ascending numeric order. -/
def isArrayIndex (s : String) : Bool :=
  match s.toNat? with
  | some n => toString n == s && decide (n < 4294967295)
  | none => false

/-- Insert into an ascending-by-numeric-value list of array-index keys. -/
def insertAscByNat (s : String) : List String → List String
  | [] => [s]
  | t :: ts =>
    if s.toNat?.getD 0 ≤ t.toNat?.getD 0 then s :: t :: ts
    else t :: insertAscByNat s ts

/-- Insertion sort of array-index keys by numeric value. -/
def sortIndices : List String → List String
  | [] => []
  | s :: ss => insertAscByNat s (sortIndices ss)

/-- Model of JS `Object.keys` enumeration order: array-index keys in
ascending numeric order first, then the remaining keys in insertion
order. -/
def jsObjectKeys {α : Type} (l : List (String × α)) : List String :=
  let keys := l.map Prod.fst
  sortIndices (keys.filter isArrayIndex) ++ keys.filter (fun k => ! isArrayIndex k)

/-! ## simple-statistics primitives

The engine computes through the `simple-statistics` npm package; the
functions it calls are embedded here with their library semantics.
Note that `ss.variance` / `ss.standardDeviation` are the *population*
versions (divisor `n`), while `ss.sampleVariance` etc. use `n - 1`. -/

/-- Embeds `ss.mean`: arithmetic mean (the library throws on `[]`; callers always
guard for nonemptiness, and the junk value `0/0 = 0` is never used). -/
def mean (l : List ℚ) : ℚ := l.sum / l.length

/-- Insertion into a sorted rational list. -/
def insertQ (q : ℚ) : List ℚ → List ℚ
  | [] => [q]
  | x :: xs => if q ≤ x then q :: x :: xs else x :: insertQ q xs

/-- Ascending sort of a rational list (`values.slice().sort((a,b) => a-b)`). -/
def sortQ : List ℚ → List ℚ
  | [] => []
  | x :: xs => insertQ x (sortQ xs)

/-- Embeds `ss.median`: middle element of the sorted list, or the average of the
two middle elements for even length. -/
def median (l : List ℚ) : ℚ :=
  let s := sortQ l
  if s.length % 2 = 1 then s.getD (s.length / 2) 0
  else (s.getD (s.length / 2 - 1) 0 + s.getD (s.length / 2) 0) / 2

/-- Embeds `ss.variance`: the population variance, `Σ (x - mean)² / n`. -/
def variance (l : List ℚ) : ℚ :=
  ((l.map (fun x => (x - mean l) ^ 2)).sum) / l.length

/-- Embeds `ss.sampleVariance`: sample variance, `Σ (x - mean)² / (n - 1)`
(the library throws for `n < 2`; callers guard). -/
def sampleVariance (l : List ℚ) : ℚ :=
  ((l.map (fun x => (x - mean l) ^ 2)).sum) / ((l.length : ℚ) - 1)

/-- Embeds `ss.sampleCovariance`: `Σ (x - x̄)(y - ȳ) / (n - 1)` over index-aligned
samples (the library throws for mismatched lengths or `n < 2`; callers
always pass two equal-length lists with `n ≥ 2`). -/
def sampleCovariance (x y : List ℚ) : ℚ :=
  (((x.zip y).map (fun p => (p.1 - mean x) * (p.2 - mean y))).sum) / ((x.length : ℚ) - 1)

/-- Embeds `Math.min(...values)` over a nonempty list. -/
def minQ (l : List ℚ) : ℚ := l.foldl min (l.headD 0)

/-- Embeds `Math.max(...values)` over a nonempty list. -/
def maxQ (l : List ℚ) : ℚ := l.foldl max (l.headD 0)

/-- Embeds `ss.quantile` on an already sorted list (the engine pre-sorts):
`idx = n·p`; `p = 0`/`p = 1` take the extremes, a fractional `idx` takes
element `⌈idx⌉ - 1`, an integral `idx` averages with the predecessor for
even length and indexes directly for odd length. -/
def quantileSorted (x : List ℚ) (p : ℚ) : ℚ :=
  let idx : ℚ := x.length * p
  if p = 1 then x.getLastD 0
  else if p = 0 then x.headD 0
  else if idx.den ≠ 1 then x.getD (Int.toNat ⌈idx⌉ - 1) 0
  else if x.length % 2 = 0 then (x.getD (idx.num.toNat - 1) 0 + x.getD idx.num.toNat 0) / 2
  else x.getD idx.num.toNat 0

/-! ## Column extraction -/

/-- Embeds `dataset.rows.map(row => row[col]).filter(val => val !== null &&
typeof val === 'number')`. -/
def numericValues (d : Dataset) (col : String) : List ℚ :=
  d.rows.filterMap (fun r => (r col).asNum?)

/-- Embeds `dataset.rows.map(row => row[col]).filter(val => val !== null)`. -/
def nonNullValues (d : Dataset) (col : String) : List Value :=
  (d.rows.map (fun r => r col)).filter (fun v => ! v.isNull)

/-! ## Descriptive statistics (`DataAnalyzer.calculateDescriptiveStats`) -/

/-- The frequency map over stringified non-null column values
(`frequency[key] = (frequency[key] || 0) + 1` in insertion order). -/
def modeFrequency (vals : List Value) : List (String × ℕ) :=
  vals.foldl (fun m v => objSet m v.toKey ((objGet? m v.toKey).getD 0 + 1)) []

/-- Embeds `Math.max(...Object.values(frequency))` (0 for the empty map, a case
the guarded caller never reaches). -/
def maxFreq (freq : List (String × ℕ)) : ℕ :=
  (freq.map Prod.snd).foldl Nat.max 0

/-- Embeds `Object.keys(frequency).filter(key => frequency[key] === maxFreq)`:
the keys attaining the maximal frequency, in JS enumeration order. -/
def modeTies (vals : List Value) : List String :=
  let freq := modeFrequency vals
  (jsObjectKeys freq).filter (fun k => objGet? freq k == some (maxFreq freq))

/-- Embeds `modes.length === 1 ? (isNaN(Number(modes[0])) ? modes[0] :
Number(modes[0])) : modes[0]`: the single maximal key (`rest = []` iff
`modes.length === 1`) is numerically coerced when it parses; ties return
the first key of `modeTies` as a plain string.  An empty tie list
(unreachable under the caller's nonemptiness guard) yields JS
`undefined`, modelled `.null`. -/
def modeOf (vals : List Value) : Value :=
  match modeTies vals with
  | [] => .null
  | m :: rest =>
    if rest = [] then
      match jsNumberConv m with
      | some q => .num q
      | none => .str m
    else .str m

/-- The quartiles sub-record of `DescriptiveStats`. -/
structure Quartiles where
  q1 : ℚ
  q2 : ℚ
  q3 : ℚ
deriving DecidableEq, Repr

/-- The per-column `DescriptiveStats` record.  The source's
`standardDeviation` field always holds `ss.standardDeviation(values) =
√(ss.variance(values))`; since `Real.sqrt` is noncomputable it is exposed
as the derived accessor `DescriptiveStats.standardDeviation` below instead
of a stored field. -/
structure DescriptiveStats where
  column : String
  count : ℕ
  mean : ℚ
  median : ℚ
  variance : ℚ
  min : ℚ
  max : ℚ
  quartiles : Quartiles
  mode : Value
deriving DecidableEq, Repr

/-- Embeds `ss.standardDeviation(values)`, i.e. the square root of the stored
(population) variance. -/
noncomputable def DescriptiveStats.standardDeviation (s : DescriptiveStats) : ℝ :=
  Real.sqrt (s.variance : ℝ)

/-- Embeds `DataAnalyzer.calculateDescriptiveStats`: numeric extraction with an
`EmptyColumnError` guard, population mean/median/variance, min/max,
quartiles over the sorted values, and the mode over all non-null raw
values. -/
def calculateDescriptiveStats (d : Dataset) (col : String) : Except String DescriptiveStats :=
  let values := numericValues d col
  if values.length = 0 then
    .error ("No numeric values found in column: " ++ col)
  else
    let sorted := sortQ values
    .ok
      { column := col
        count := values.length
        mean := mean values
        median := median values
        variance := variance values
        min := minQ values
        max := maxQ values
        quartiles :=
          { q1 := quantileSorted sorted (1/4)
            q2 := quantileSorted sorted (1/2)
            q3 := quantileSorted sorted (3/4) }
        mode := modeOf (nonNullValues d col) }

/-! ## Correlation (`DataAnalyzer.calculateCorrelation`) -/

/-- The row-aligned pair extraction: a row contributes iff both columns
hold non-null numbers in that row. -/
def extractPairs (d : Dataset) (c1 c2 : String) : List (ℚ × ℚ) :=
  d.rows.filterMap (fun r =>
    match (r c1).asNum?, (r c2).asNum? with
    | some a, some b => some (a, b)
    | _, _ => none)

/-- Embeds `ss.sampleCorrelation`:
`sampleCovariance(x,y) / sampleStandardDeviation(x) / sampleStandardDeviation(y)`.
In JS the result is NaN exactly when one of the sample variances is 0
(then the covariance is 0 as well and the computation ends in `0/0`);
a NaN coefficient is modelled as `none`. -/
noncomputable def sampleCorrelation (x y : List ℚ) : Option ℝ :=
  if sampleVariance x = 0 ∨ sampleVariance y = 0 then none
  else
    some (((sampleCovariance x y : ℝ) / Real.sqrt (sampleVariance x)) /
      Real.sqrt (sampleVariance y))

/-- The coarse `significance` label of a `CorrelationResult`. -/
inductive Significance where
  | significant
  | not_significant
deriving DecidableEq, Repr

/-- The `CorrelationResult` record; `coefficient = none` models a NaN
coefficient. -/
structure CorrelationResult where
  variable1 : String
  variable2 : String
  coefficient : Option ℝ
  significance : Significance

open Classical in
/-- Embeds `Math.abs(coefficient) > 0.5 ? 'significant' : 'not_significant'`;
a NaN coefficient compares false in JS and is labelled
`not_significant`. -/
noncomputable def significanceOf (coefficient : Option ℝ) : Significance :=
  match coefficient with
  | none => .not_significant
  | some r => if 1/2 < |r| then .significant else .not_significant

/-- Embeds `DataAnalyzer.calculateCorrelation`: per-column nonemptiness guard,
row-aligned pair extraction with an `InsufficientDataError` guard below 2
pairs, then Pearson's r with the fixed `|r| > 0.5` significance
threshold. -/
noncomputable def calculateCorrelation (d : Dataset) (c1 c2 : String) :
    Except String CorrelationResult :=
  let values1 := numericValues d c1
  let values2 := numericValues d c2
  if values1.length = 0 ∨ values2.length = 0 then
    .error "No numeric values found for correlation calculation"
  else
    let pairs := extractPairs d c1 c2
    if pairs.length < 2 then
      .error "Insufficient data points for correlation calculation"
    else
      let coefficient := sampleCorrelation (pairs.map Prod.fst) (pairs.map Prod.snd)
      .ok
        { variable1 := c1
          variable2 := c2
          coefficient := coefficient
          significance := significanceOf coefficient }

/-! ## Correlation matrix (`DataAnalyzer.calculateCorrelationMatrix`)

The nested JS object `{ [column1]: { [column2]: number | null } }` is
modelled by nested association lists.  A cell holds `none` for JS `null`
and `some c` for a stored coefficient `c : Option ℝ` (itself `none` for
NaN).  Writing `m[k1][k2]` when `m[k1]` is still `undefined` is a JS
`TypeError`; `setCell` returns that error. -/

/-- One row of the correlation matrix. -/
def MatrixRow : Type := List (String × Option (Option ℝ))

/-- The correlation matrix object. -/
def Matrix : Type := List (String × MatrixRow)

/-- JS assignment `m[k1][k2] = v`: fails with a TypeError when `m[k1]` is undefined. -/
def setCell (m : Matrix) (k1 k2 : String) (v : Option (Option ℝ)) : Except String Matrix :=
  match objGet? m k1 with
  | none => .error "TypeError: Cannot set properties of undefined"
  | some row => .ok (objSet m k1 (objSet row k2 v))

/-- The inner-loop body of `calculateCorrelationMatrix`:
`try { r = corr; m[c1][c2] = r; m[c2][c1] = r } catch { m[c1][c2] = null;
m[c2][c1] = null }` — writes performed before a throw persist, the catch
handler runs on that intermediate state, and a throw from the handler
itself propagates. -/
noncomputable def matrixLoopBody (m : Matrix) (c1 c2 : String)
    (corr : Except String (Option ℝ)) : Except String Matrix :=
  let afterTry : Matrix × Bool :=
    match corr with
    | .error _ => (m, true)
    | .ok v =>
      match setCell m c1 c2 (some v) with
      | .error _ => (m, true)
      | .ok m1 =>
        match setCell m1 c2 c1 (some v) with
        | .error _ => (m1, true)
        | .ok m2 => (m2, false)
  if afterTry.2 then
    match setCell afterTry.1 c1 c2 none with
    | .error e => .error e
    | .ok m1 => setCell m1 c2 c1 none
  else
    .ok afterTry.1

/-- The inner `j` loop: for fixed `column1 = c1`, iterate `column2` over
the remaining columns from index `i` on. -/
noncomputable def matrixInnerLoop (d : Dataset) (c1 : String) :
    List String → Matrix → Except String Matrix
  | [], m => .ok m
  | c2 :: rest, m =>
    match matrixLoopBody m c1 c2 ((calculateCorrelation d c1 c2).map (fun r => r.coefficient)) with
    | .error e => .error e
    | .ok m' => matrixInnerLoop d c1 rest m'

/-- The outer `i` loop: `correlationMatrix[column1] = {}` then the inner
loop from `j = i`. -/
noncomputable def matrixOuterLoop (d : Dataset) :
    List String → Matrix → Except String Matrix
  | [], m => .ok m
  | c1 :: rest, m =>
    match matrixInnerLoop d c1 (c1 :: rest) (objSet m c1 []) with
    | .error e => .error e
    | .ok m' => matrixOuterLoop d rest m'

/-- Columns holding at least one numeric value (the matrix's column
selection). -/
def matrixNumericColumns (d : Dataset) : List String :=
  d.columns.filter (fun col => decide (0 < (numericValues d col).length))

/-- Embeds `DataAnalyzer.calculateCorrelationMatrix`. -/
noncomputable def calculateCorrelationMatrix (d : Dataset) : Except String Matrix :=
  matrixOuterLoop d (matrixNumericColumns d) []

/-! ## Histogram (`DataAnalyzer.generateHistogram`) -/

/-- Rounding to two decimals and rendering with exactly two fractional
digits; models `number.toFixed(2)` for the values arising here (labels
only — no claim depends on the label text). -/
def qToFixed2 (q : ℚ) : String :=
  let scaled : ℤ := round (q * 100)
  let n := scaled.natAbs
  (if scaled < 0 then "-" else "") ++ toString (n / 100) ++ "." ++
    (if n % 100 < 10 then "0" else "") ++ toString (n % 100)

/-- One histogram bin: `{ range: "lo-hi", count }`. -/
structure HistBin where
  range : String
  count : ℕ
deriving DecidableEq, Repr

/-- The bin membership test of `generateHistogram`:
`val >= binStart && (i === bins - 1 ? val <= binEnd : val < binEnd)` with
`binStart = lo + i·w` and `binEnd = lo + (i+1)·w`. -/
def binPred (lo w : ℚ) (bins i : ℕ) (v : ℚ) : Bool :=
  decide (lo + i * w ≤ v) &&
    (if i = bins - 1 then decide (v ≤ lo + (i + 1) * w) else decide (v < lo + (i + 1) * w))

/-- Embeds `DataAnalyzer.generateHistogram`: `binWidth = (max - min)/bins`; bin
`i` counts the values `v` with `binStart ≤ v` and `v < binEnd`, except the
last bin which uses `v ≤ binEnd`. -/
def generateHistogram (d : Dataset) (col : String) (bins : ℕ := 10) :
    Except String (List HistBin) :=
  let values := numericValues d col
  if values.length = 0 then
    .error ("No numeric values found in column: " ++ col)
  else
    let lo := minQ values
    let hi := maxQ values
    let binWidth := (hi - lo) / bins
    .ok ((List.range bins).map (fun (i : ℕ) =>
      { range := qToFixed2 (lo + i * binWidth) ++ "-" ++ qToFixed2 (lo + (i + 1) * binWidth)
        count := (values.filter (binPred lo binWidth bins i)).length }))

/-! ## Summary statistics (`DataAnalyzer.getSummaryStatistics`) -/

/-- The summary's column selection: non-null values exist and the *first*
non-null value is a number (`values.length > 0 &&
typeof values[0] === 'number'`). -/
def summaryNumericColumns (d : Dataset) : List String :=
  d.columns.filter (fun col =>
    match (d.rows.map (fun r => r col)).filter (fun v => ! v.isNull) with
    | Value.num _ :: _ => true
    | _ => false)

/-- Embeds `numericColumns.map(col => this.calculateDescriptiveStats(dataset,
col))` with a thrown error propagating out of the whole call. -/
def mapExcept {α β : Type} (f : α → Except String β) : List α → Except String (List β)
  | [] => .ok []
  | a :: rest =>
    match f a with
    | .error e => .error e
    | .ok b =>
      match mapExcept f rest with
      | .error e => .error e
      | .ok bs => .ok (b :: bs)

/-- Embeds `DataAnalyzer.getSummaryStatistics` (the `data` payload of the
returned result). -/
def getSummaryStatistics (d : Dataset) : Except String (List DescriptiveStats) :=
  mapExcept (calculateDescriptiveStats d) (summaryNumericColumns d)

/-! ## Kaplan–Meier (`DataAnalyzer.calculateKaplanMeier`)

Modelled from the spec: the repository delegates `calculateKaplanMeier`
to `compute` of the external npm package `@fullstax/kaplan-meier-estimator`,
whose sources are not part of the repository; the estimator below follows
spec §4.5 — ascending distinct time points, risk set
`n = #{subjects with time ≥ t}`, survival updated by `S · (1 - d/n)` at
each time with `d ≥ 1` events, censoring-only times reducing the risk set
without a drop, and a `MismatchedLengthError` on input sequences of
different lengths. -/

/-- One point of the survival step function. -/
structure SurvivalPoint where
  time : ℚ
  survival : ℚ
deriving DecidableEq, Repr

/-- Modelled from the spec: the Kaplan–Meier estimator of §4.5 (the
external `@fullstax/kaplan-meier-estimator.compute` is not part of the
repository sources). -/
def calculateKaplanMeier (timeToEvent : List ℚ) (eventOccurred : List Bool) :
    Except String (List SurvivalPoint) :=
  if timeToEvent.length ≠ eventOccurred.length then
    .error "MismatchedLengthError"
  else
    let subjects := timeToEvent.zip eventOccurred
    let timePoints := sortQ timeToEvent.dedup
    .ok (timePoints.foldl
      (fun (acc : ℚ × List SurvivalPoint) t =>
        let n := (subjects.filter (fun s => decide (t ≤ s.1))).length
        let dEv := (subjects.filter (fun s => decide (s.1 = t) && s.2)).length
        let surv := if 0 < dEv then acc.1 * (1 - (dEv : ℚ) / n) else acc.1
        (surv, acc.2 ++ [⟨t, surv⟩]))
      ((1 : ℚ), ([] : List SurvivalPoint))).2

/-! ## Independent two-sample t-test (`DataAnalyzer.performIndependentTTest`) -/

/-- The `TTestResult` record.  The source's `tStatistic` field holds
`ss.tTestTwoSample(sample1, sample2) = (mean1 - mean2) /
√(pooledVariance · (1/n1 + 1/n2))`; it is stored here as the exact
numerator `tStatisticNum` and radicand `tStatisticDenSq`, with the real
value exposed by the accessor `TTestResult.tStatistic` (`Real.sqrt` is
noncomputable).  The `interpretation` string, which only interpolates
`tStatistic.toFixed(3)` and the degrees of freedom into fixed prose, is
not modelled. -/
structure TTestResult where
  testType : String
  group1Name : String
  group2Name : String
  group1Mean : ℚ
  group2Mean : ℚ
  group1Variance : ℚ
  group2Variance : ℚ
  group1Size : ℕ
  group2Size : ℕ
  tStatisticNum : ℚ
  tStatisticDenSq : ℚ
  degreesOfFreedom : ℕ
deriving DecidableEq, Repr

/-- The t-statistic value `ss.tTestTwoSample` returned. -/
noncomputable def TTestResult.tStatistic (r : TTestResult) : ℝ :=
  (r.tStatisticNum : ℝ) / Real.sqrt (r.tStatisticDenSq : ℝ)

/-- The per-group numeric samples, keyed by the stringified group value in
insertion order: a row contributes iff its group value is non-null and its
value entry is a (finite) number. -/
def buildGroups (d : Dataset) (g v : String) : List (String × List ℚ) :=
  d.rows.foldl
    (fun groups r =>
      match r g, (r v).asNum? with
      | .null, _ => groups
      | _, none => groups
      | gv, some q => objSet groups gv.toKey ((objGet? groups gv.toKey).getD [] ++ [q]))
    []

/-- The source's group-count error message. -/
def groupCountErrorMsg (g : String) (keys : List String) : String :=
  "Group column \"" ++ g ++ "\" must contain exactly two unique groups for an independent t-test. Found " ++
    toString keys.length ++ ": " ++ String.intercalate ", " keys ++ "."

/-- Embeds `DataAnalyzer.performIndependentTTest`: column-existence guards,
numeric-data guard, grouping, the exactly-2-groups guard, the ≥2
observations-per-group guard, pooled-variance t-statistic with its
finiteness guard (`√(pooled·(1/n1+1/n2)) = 0` makes the JS quotient
non-finite), and `df = n1 + n2 - 2`.  Every failure is an immediate
`.error`; no partial result escapes. -/
def performIndependentTTest (d : Dataset) (g v : String) : Except String TTestResult :=
  if ¬ d.columns.contains g then
    .error ("Group column \"" ++ g ++ "\" not found in dataset.")
  else if ¬ d.columns.contains v then
    .error ("Value column \"" ++ v ++ "\" not found in dataset.")
  else if (numericValues d v).length = 0 then
    .error ("No valid numeric data found in value column \"" ++ v ++ "\".")
  else
    let groups := buildGroups d g v
    let groupKeys := jsObjectKeys groups
    if groupKeys.length ≠ 2 then
      .error (groupCountErrorMsg g groupKeys)
    else
      let g1 := groupKeys.getD 0 ""
      let g2 := groupKeys.getD 1 ""
      let sample1 := (objGet? groups g1).getD []
      let sample2 := (objGet? groups g2).getD []
      if sample1.length < 2 ∨ sample2.length < 2 then
        .error "Each group must have at least 2 data points for a t-test."
      else
        let n1 : ℚ := sample1.length
        let n2 : ℚ := sample2.length
        let pooled := ((n1 - 1) * sampleVariance sample1 + (n2 - 1) * sampleVariance sample2) /
          (n1 + n2 - 2)
        let denSq := pooled * (1 / n1 + 1 / n2)
        if denSq = 0 then
          .error "Could not compute t-statistic. Check data variability within groups."
        else
          .ok
            { testType := "Independent Samples T-Test"
              group1Name := g1
              group2Name := g2
              group1Mean := mean sample1
              group2Mean := mean sample2
              group1Variance := variance sample1
              group2Variance := variance sample2
              group1Size := sample1.length
              group2Size := sample2.length
              tStatisticNum := mean sample1 - mean sample2
              tStatisticDenSq := denSq
              degreesOfFreedom := sample1.length + sample2.length - 2 }

/-! ## Contingency table (`GeminiService.performChiSquaredWithPostHoc`)

Only the contingency-table construction (geminiService.ts lines 468–483)
is modelled; the chi-squared statistic itself is computed by the external
package `@stdlib/stats-chisqtest` and no claim depends on it. -/

/-- An element rendered by `Array.prototype.join`: `null`/`undefined`
render as the empty string, other values stringify. -/
def jsJoinElem : Value → String
  | .null => ""
  | v => v.toKey

/-- The contingency-table key of a row: the row's grouping-column values
joined with `"-"`. -/
def contingencyKey (others : List String) (r : Row) : String :=
  String.intercalate "-" (others.map (fun c => jsJoinElem (r c)))

/-- One increment of the contingency table: creates `{ [innerKey]: 1 }`
for a fresh outer key, otherwise `table[key][innerKey] =
(table[key][innerKey] || 0) + 1`. -/
def bumpCell (t : List (String × List (String × ℕ))) (key innerKey : String) :
    List (String × List (String × ℕ)) :=
  match objGet? t key with
  | none => objSet t key [(innerKey, 1)]
  | some row => objSet t key (objSet row innerKey ((objGet? row innerKey).getD 0 + 1))

/-- The contingency table of `performChiSquaredWithPostHoc`: rows with a
null target value are skipped, every other row increments the cell at
(grouping-key, stringified target value). -/
def buildContingencyTable (d : Dataset) (target : String) (others : List String) :
    List (String × List (String × ℕ)) :=
  d.rows.foldl
    (fun table r =>
      if (r target).isNull then table
      else bumpCell table (contingencyKey others r) (r target).toKey)
    []

/-- The table phase of `performChiSquaredWithPostHoc`: `null` (modelled `none`)
for fewer than 2 columns, otherwise the table keyed by
`columns.slice(1)` with target `columns[0]`. -/
def performChiSquaredTable (d : Dataset) (columns : List String) :
    Option (List (String × List (String × ℕ))) :=
  match columns with
  | target :: other1 :: others => some (buildContingencyTable d target (other1 :: others))
  | _ => none

/-- The sum of an association list's values under `f`. -/
def assocSum {α : Type} (f : α → ℕ) (l : List (String × α)) : ℕ :=
  (l.map (fun p => f p.2)).sum

/-- The grand total of a contingency table's cell counts. -/
def tableTotal (t : List (String × List (String × ℕ))) : ℕ :=
  assocSum (assocSum id) t

/-- One cell count of the contingency table (0 when absent). -/
def cellCount (t : List (String × List (String × ℕ))) (key innerKey : String) : ℕ :=
  ((objGet? t key).bind (fun row => objGet? row innerKey)).getD 0

/-- Componentwise decidable equality on `Except` values, used to evaluate
the concrete scenario theorems by `decide`. -/
instance exceptDecEq {ε α : Type} [DecidableEq ε] [DecidableEq α] :
    DecidableEq (Except ε α) := fun x y =>
  match x, y with
  | .ok a, .ok b => decidable_of_iff (a = b) (by simp)
  | .error e, .error f => decidable_of_iff (e = f) (by simp)
  | .ok _, .error _ => isFalse (by simp)
  | .error _, .ok _ => isFalse (by simp)

/-! ## Concrete datasets for the scenario theorems and witnesses -/

/-- Helper building a row record from explicit bindings; missing columns
are null. -/
def mkRow (l : List (String × Value)) : Row :=
  fun c => ((l.find? (fun p => p.1 = c)).map Prod.snd).getD .null

/-- Scenario A input: a single numeric column `[1,2,3,4,5]`. -/
def scenarioA : Dataset :=
  { columns := ["value"]
    rows := [1, 2, 3, 4, 5].map (fun q => mkRow [("value", Value.num q)]) }

/-- Scenario B input: a numeric column `[0, 10]`. -/
def scenarioB : Dataset :=
  { columns := ["v"]
    rows := [0, 10].map (fun q => mkRow [("v", Value.num q)]) }

/-- Scenario C input: two identical, non-constant numeric columns
`[1,2,3]`. -/
def scenarioC : Dataset :=
  { columns := ["x", "y"]
    rows := [1, 2, 3].map (fun q => mkRow [("x", Value.num q), ("y", Value.num q)]) }

/-- Two numeric columns with no row in which both are numbers: every
pairwise computation fails, so the correlation matrix is supposed to be
all-null — instead the loop's mirror write crashes. -/
def matrixCrashDataset : Dataset :=
  { columns := ["a", "b"]
    rows := [mkRow [("a", Value.num 1)], mkRow [("b", Value.num 1)]] }

/-- A column whose two maximally-frequent values 5 and 3 are first
encountered in the order 5, 3 but enumerate numerically as 3, 5. -/
def tieDataset : Dataset :=
  { columns := ["v"]
    rows := [5, 3, 5, 3].map (fun q => mkRow [("v", Value.num q)]) }

/-- A column whose first non-null value is a string but which contains a
numeric value further down. -/
def mixedColumnDataset : Dataset :=
  { columns := ["a"]
    rows := [mkRow [("a", Value.str "x")], mkRow [("a", Value.num 1)]] }

/-- A group column with three distinct groups. -/
def threeGroupsDataset : Dataset :=
  { columns := ["g", "v"]
    rows := [mkRow [("g", Value.str "a"), ("v", Value.num 1)],
             mkRow [("g", Value.str "b"), ("v", Value.num 2)],
             mkRow [("g", Value.str "c"), ("v", Value.num 3)]] }

/-! # Theorems settling the claims -/

/-! ## Shared helper lemmas -/

/-- Whenever the column holds a numeric value, `calculateDescriptiveStats`
succeeds, with every field given by the corresponding statistic. -/
theorem calculateDescriptiveStats_ok (d : Dataset) (col : String)
    (h : numericValues d col ≠ []) :
    calculateDescriptiveStats d col = .ok
      { column := col
        count := (numericValues d col).length
        mean := mean (numericValues d col)
        median := median (numericValues d col)
        variance := variance (numericValues d col)
        min := minQ (numericValues d col)
        max := maxQ (numericValues d col)
        quartiles :=
          { q1 := quantileSorted (sortQ (numericValues d col)) (1/4)
            q2 := quantileSorted (sortQ (numericValues d col)) (1/2)
            q3 := quantileSorted (sortQ (numericValues d col)) (3/4) }
        mode := modeOf (nonNullValues d col) } := by
  have hlen0 : ¬ ((numericValues d col).length = 0) := by
    simpa [List.length_eq_zero] using h
  simp only [calculateDescriptiveStats]
  rw [if_neg hlen0]

/-- A column one of whose rows holds a numeric value has a nonempty
numeric extraction. -/
theorem numericValues_ne_nil_of_mem_num {d : Dataset} {col : String} {q : ℚ}
    (h : Value.num q ∈ d.rows.map (fun r => r col)) : numericValues d col ≠ [] := by
  rcases List.mem_map.mp h with ⟨r, hr, hrq⟩
  intro hnil
  have h2 := List.filterMap_eq_nil_iff.mp hnil r hr
  rw [hrq] at h2
  simp [Value.asNum?] at h2

/-! ## C1: descriptive statistics use the population variance -/

/-- Claim C1 (amended). For every dataset and column containing at least
one numeric value, `calculateDescriptiveStats` succeeds and returns the
**population** variance and standard deviation (divisor `n`, the
semantics of `ss.variance`/`ss.standardDeviation`):
`variance · n = Σ (x − mean)²` and `standardDeviation = √variance`;
for the column `[1,2,3,4,5]` it returns mean 3, median 3, variance 2 and
standard deviation `√2 ≈ 1.414`. -/
theorem claim1_population_variance :
    (∀ (d : Dataset) (col : String), numericValues d col ≠ [] →
      ∃ s, calculateDescriptiveStats d col = .ok s ∧
        s.count = (numericValues d col).length ∧
        s.mean * (s.count : ℚ) = (numericValues d col).sum ∧
        s.variance * (s.count : ℚ) =
          ((numericValues d col).map (fun x => (x - s.mean) ^ 2)).sum ∧
        s.standardDeviation = Real.sqrt (s.variance : ℝ)) ∧
    (∃ s, calculateDescriptiveStats scenarioA "value" = .ok s ∧
      s.mean = 3 ∧ s.median = 3 ∧ s.variance = 2 ∧
      s.standardDeviation = Real.sqrt 2) := by
  constructor
  · intro d col hne
    have hlenQ : ((numericValues d col).length : ℚ) ≠ 0 :=
      Nat.cast_ne_zero.mpr (by simpa [List.length_eq_zero] using hne)
    refine ⟨_, calculateDescriptiveStats_ok d col hne, rfl, ?_, ?_, rfl⟩
    · show mean (numericValues d col) * ((numericValues d col).length : ℚ) = _
      rw [mean, div_mul_cancel₀ _ hlenQ]
    · show variance (numericValues d col) * ((numericValues d col).length : ℚ) = _
      rw [variance, div_mul_cancel₀ _ hlenQ]
  · refine ⟨_, calculateDescriptiveStats_ok scenarioA "value" (by with_unfolding_all decide),
      ?_, ?_, ?_, ?_⟩
    · with_unfolding_all decide
    · with_unfolding_all decide
    · with_unfolding_all decide
    · show Real.sqrt ((variance (numericValues scenarioA "value") : ℚ) : ℝ) = Real.sqrt 2
      rw [show variance (numericValues scenarioA "value") = 2 from by with_unfolding_all decide]
      norm_num

/-- Witness for C1: the general part of the amended claim instantiated at
the Scenario A column. -/
theorem claim1_witness :
    numericValues scenarioA "value" ≠ [] ∧
    (∃ s, calculateDescriptiveStats scenarioA "value" = .ok s ∧
      s.count = (numericValues scenarioA "value").length ∧
      s.mean * (s.count : ℚ) = (numericValues scenarioA "value").sum ∧
      s.variance * (s.count : ℚ) =
        ((numericValues scenarioA "value").map (fun x => (x - s.mean) ^ 2)).sum ∧
      s.standardDeviation = Real.sqrt (s.variance : ℝ)) :=
  ⟨by with_unfolding_all decide,
    claim1_population_variance.1 scenarioA "value" (by with_unfolding_all decide)⟩

/-- Claim C3. For every pair of input sequences `timeToEvent` and
`eventOccurred` whose lengths differ, `calculateKaplanMeier` fails with
the mismatched-length error rather than returning a survival curve. -/
theorem claim3_mismatched_length (ts : List ℚ) (es : List Bool)
    (h : ts.length ≠ es.length) :
    calculateKaplanMeier ts es = .error "MismatchedLengthError" := by
  simp [calculateKaplanMeier, h]

/-- Witness for C3: concrete sequences of lengths 2 and 1. -/
theorem claim3_witness :
    ([5, 10] : List ℚ).length ≠ ([true] : List Bool).length ∧
      calculateKaplanMeier [5, 10] [true] = .error "MismatchedLengthError" :=
  ⟨by decide, claim3_mismatched_length [5, 10] [true] (by decide)⟩

/-- Claim C8. Kaplan–Meier on times `[5,10]` with events `[true,false]`:
the curve drops to 1/2 at time 5 and remains 1/2 through time 10; the
risk set at time 5 has 2 subjects of which 1 events, and no event occurs
at the censored time 10. -/
theorem claim8_scenario_d :
    calculateKaplanMeier [5, 10] [true, false] =
        .ok [⟨5, 1/2⟩, ⟨10, 1/2⟩] ∧
      ((([5, 10] : List ℚ).zip [true, false]).filter
        (fun s => decide ((5 : ℚ) ≤ s.1))).length = 2 ∧
      ((([5, 10] : List ℚ).zip [true, false]).filter
        (fun s => decide (s.1 = (5 : ℚ)) && s.2)).length = 1 ∧
      ((([5, 10] : List ℚ).zip [true, false]).filter
        (fun s => decide (s.1 = (10 : ℚ)) && s.2)).length = 0 := by
  with_unfolding_all decide

/-- Claim C2 is the intended behaviour, but the code crashes instead: on a
dataset with two numeric columns, the very first off-diagonal iteration
writes the mirror cell `matrix[column2][column1]` before
`matrix[column2]` has been initialised, a JS TypeError; the catch
handler's own mirror write then rethrows, so `calculateCorrelationMatrix`
raises instead of storing `null`. -/
theorem claim2_matrix_crash :
    calculateCorrelationMatrix matrixCrashDataset =
      .error "TypeError: Cannot set properties of undefined" := by
  rfl

/-- Counterexample to C10. For column values `[5, 3, 5, 3]` the two tied
keys are first encountered in the order `"5", "3"`, yet the returned mode
is `"3"`: `Object.keys` enumerates integer-like keys in ascending numeric
order, not insertion order, so the mode is *not* the first-encountered
tied key. -/
theorem claim10_counterexample :
    (modeFrequency (nonNullValues tieDataset "v")).map Prod.fst = ["5", "3"] ∧
      (calculateDescriptiveStats tieDataset "v").map (fun s => s.mode) =
        .ok (Value.str "3") ∧
      ¬ ((calculateDescriptiveStats tieDataset "v").map (fun s => s.mode) =
        .ok (Value.str "5")) := by
  refine ⟨by decide, by with_unfolding_all decide, by with_unfolding_all decide⟩

/-- Counterexample to C4. The column `["x", 1]` contains a numeric
value, so the claim demands exactly one `DescriptiveStats` record for it;
`getSummaryStatistics` returns no record at all, because its column
selection tests only whether the *first* non-null value is a number. -/
theorem claim4_counterexample :
    0 < (numericValues mixedColumnDataset "a").length ∧
      getSummaryStatistics mixedColumnDataset = .ok [] := by
  refine ⟨by decide, by with_unfolding_all decide⟩

/-- Counterexample to C1. For the column `[1,2,3,4,5]` the engine
returns variance 2 — `ss.variance` divides by `n`, not `n − 1` — so the
claimed sample variance 2.5 is refuted. -/
theorem claim1_counterexample :
    (calculateDescriptiveStats scenarioA "value").map (fun s => s.variance) = .ok 2 ∧
      ¬ ((calculateDescriptiveStats scenarioA "value").map (fun s => s.variance) =
        .ok (5/2)) := by
  refine ⟨by with_unfolding_all decide, by with_unfolding_all decide⟩

/-! ## C4: the summary's column selection -/

/-- Applying `mapExcept` to per-column descriptive statistics succeeds on every
list of columns with nonempty numeric extraction, with one record per
column carrying that column's name and a positive count. -/
theorem summary_cols_ok (d : Dataset) (cols : List String)
    (h : ∀ c ∈ cols, numericValues d c ≠ []) :
    ∃ l, mapExcept (calculateDescriptiveStats d) cols = .ok l ∧
      l.map (fun s => s.column) = cols ∧ ∀ s ∈ l, 0 < s.count := by
  induction cols with
  | nil => exact ⟨[], rfl, rfl, by simp⟩
  | cons c rest ih =>
    obtain ⟨l, hl, hcols, hcount⟩ := ih (fun x hx => h x (List.mem_cons_of_mem c hx))
    have hc : numericValues d c ≠ [] := h c (List.mem_cons_self c rest)
    obtain ⟨s, hs, hscol, hscount⟩ :
        ∃ s, calculateDescriptiveStats d c = .ok s ∧ s.column = c ∧ 0 < s.count := by
      refine ⟨_, calculateDescriptiveStats_ok d c hc, rfl, ?_⟩
      simpa [List.length_pos] using hc
    refine ⟨s :: l, ?_, ?_, ?_⟩
    · simp only [mapExcept, hs, hl]
    · simp [hscol, hcols]
    · intro x hx
      rcases List.mem_cons.mp hx with hx | hx
      · subst hx; exact hscount
      · exact hcount x hx

/-- Claim C4 (amended). For every dataset, `getSummaryStatistics` succeeds
and returns exactly one `DescriptiveStats` record per column whose
**first non-null value** is a number (the selection actually implemented:
`values.length > 0 && typeof values[0] === 'number'`), in column order;
each record has a positive count.  A column whose numeric values appear
only after a non-numeric one is *not* summarised. -/
theorem claim4_summary_first_nonnull (d : Dataset) :
    ∃ l, getSummaryStatistics d = .ok l ∧
      l.map (fun s => s.column) = summaryNumericColumns d ∧
      l.length = (summaryNumericColumns d).length ∧
      ∀ s ∈ l, 0 < s.count := by
  have hall : ∀ c ∈ summaryNumericColumns d, numericValues d c ≠ [] := by
    intro c hc
    have hpred := List.of_mem_filter hc
    rcases hX : (d.rows.map (fun r => r c)).filter (fun v => ! v.isNull) with _ | ⟨v, tl⟩
    · rw [hX] at hpred; simp at hpred
    · rw [hX] at hpred
      cases v with
      | num q =>
        have hmem : Value.num q ∈ (d.rows.map (fun r => r c)).filter (fun v => ! v.isNull) := by
          rw [hX]; exact List.mem_cons_self _ _
        exact numericValues_ne_nil_of_mem_num (List.mem_of_mem_filter hmem)
      | str s => simp at hpred
      | bool b => simp at hpred
      | null => simp at hpred
  obtain ⟨l, hl, hcols, hcount⟩ := summary_cols_ok d (summaryNumericColumns d) hall
  refine ⟨l, hl, hcols, ?_, hcount⟩
  rw [← hcols, List.length_map]

/-! ## C10: mode tie-breaking follows JS key enumeration order -/

/-- Claim C10 (amended). When the column has a numeric value (so the call
succeeds), the mode is determined by `modeTies`, the maximal-frequency
keys in JS `Object.keys` enumeration order (array-index keys in ascending
numeric order first, then insertion order): a single tied key is returned
with numeric coercion when it parses as a number, while two or more tied
keys return the **first key in enumeration order** — not the
first-encountered key — as a plain string without coercion; the returned
tied key always attains the maximal frequency. -/
theorem claim10_mode_ties (d : Dataset) (col : String)
    (hne : numericValues d col ≠ []) :
    ∃ s, calculateDescriptiveStats d col = .ok s ∧
      (∀ m, modeTies (nonNullValues d col) = [m] →
        s.mode = (match jsNumberConv m with
                  | some q => Value.num q
                  | none => Value.str m)) ∧
      (∀ m rest, modeTies (nonNullValues d col) = m :: rest → rest ≠ [] →
        s.mode = Value.str m ∧
        objGet? (modeFrequency (nonNullValues d col)) m =
          some (maxFreq (modeFrequency (nonNullValues d col)))) := by
  refine ⟨_, calculateDescriptiveStats_ok d col hne, ?_, ?_⟩
  · intro m hm
    show modeOf (nonNullValues d col) = _
    rw [modeOf, hm]
    simp
  · intro m rest hm hrest
    constructor
    · show modeOf (nonNullValues d col) = _
      rw [modeOf, hm]
      simp [hrest]
    · have hmem : m ∈ modeTies (nonNullValues d col) := by
        rw [hm]; exact List.mem_cons_self _ _
      have := List.of_mem_filter hmem
      exact eq_of_beq this

/-- Witness for C10: the amended tie-breaking statement instantiated at
the `[5,3,5,3]` column. -/
theorem claim10_witness :
    numericValues tieDataset "v" ≠ [] ∧
    (∃ s, calculateDescriptiveStats tieDataset "v" = .ok s ∧
      (∀ m, modeTies (nonNullValues tieDataset "v") = [m] →
        s.mode = (match jsNumberConv m with
                  | some q => Value.num q
                  | none => Value.str m)) ∧
      (∀ m rest, modeTies (nonNullValues tieDataset "v") = m :: rest → rest ≠ [] →
        s.mode = Value.str m ∧
        objGet? (modeFrequency (nonNullValues tieDataset "v")) m =
          some (maxFreq (modeFrequency (nonNullValues tieDataset "v"))))) :=
  ⟨by with_unfolding_all decide,
    claim10_mode_ties tieDataset "v" (by with_unfolding_all decide)⟩

/-! ## C7: t-test precondition guards -/

/-- Insertion grows the length by one. -/
theorem insertAscByNat_length (s : String) (l : List String) :
    (insertAscByNat s l).length = l.length + 1 := by
  induction l with
  | nil => rfl
  | cons t ts ih =>
    rw [insertAscByNat]
    split
    · rfl
    · simp [ih]

/-- Sorting the array-index keys preserves the length. -/
theorem sortIndices_length (l : List String) : (sortIndices l).length = l.length := by
  induction l with
  | nil => rfl
  | cons s ss ih =>
    rw [sortIndices, insertAscByNat_length, ih]
    rfl

/-- A filter and its complement split a list's length. -/
theorem filter_length_split {α : Type} (p : α → Bool) (l : List α) :
    (l.filter p).length + (l.filter (fun a => ! p a)).length = l.length := by
  induction l with
  | nil => rfl
  | cons a t ih =>
    cases h : p a <;> simp [List.filter_cons, h] <;> omega

/-- The `Object.keys` model enumerates exactly one key per property. -/
theorem jsObjectKeys_length {α : Type} (l : List (String × α)) :
    (jsObjectKeys l).length = l.length := by
  rw [jsObjectKeys]
  rw [List.length_append, sortIndices_length, filter_length_split]
  exact List.length_map l Prod.fst

/-- Claim C7. Under the guards that both columns exist and the value column
holds numeric data, `performIndependentTTest` fails with the group-count
error whenever the number of distinct (stringified) groups differs
from 2, and fails with the insufficient-data error whenever exactly 2
groups exist but one of them has fewer than 2 numeric observations.  In
the `Except` embedding every failure is an immediate `.error`; no
partially computed `TTestResult` is ever returned alongside it. -/
theorem claim7_ttest_guards (d : Dataset) (g v : String)
    (hg : d.columns.contains g = true) (hv : d.columns.contains v = true)
    (hdata : numericValues d v ≠ []) :
    ((buildGroups d g v).length ≠ 2 →
      performIndependentTTest d g v =
        .error (groupCountErrorMsg g (jsObjectKeys (buildGroups d g v)))) ∧
    (∀ k ∈ jsObjectKeys (buildGroups d g v),
      (buildGroups d g v).length = 2 →
      ((objGet? (buildGroups d g v) k).getD []).length < 2 →
      performIndependentTTest d g v =
        .error "Each group must have at least 2 data points for a t-test.") := by
  have hlen0 : ¬ ((numericValues d v).length = 0) := by
    simpa [List.length_eq_zero] using hdata
  constructor
  · intro h2
    have hkeys : (jsObjectKeys (buildGroups d g v)).length ≠ 2 := by
      rw [jsObjectKeys_length]; exact h2
    simp only [performIndependentTTest, hg, hv, hlen0]
    simp [hkeys]
  · intro k hk h2 hsmall
    have hkeys : (jsObjectKeys (buildGroups d g v)).length = 2 := by
      rw [jsObjectKeys_length]; exact h2
    obtain ⟨k1, k2, hkeq⟩ := List.length_eq_two.mp hkeys
    have hdisj :
        ((objGet? (buildGroups d g v) ((jsObjectKeys (buildGroups d g v)).getD 0 "")).getD
          []).length < 2 ∨
        ((objGet? (buildGroups d g v) ((jsObjectKeys (buildGroups d g v)).getD 1 "")).getD
          []).length < 2 := by
      rw [hkeq] at hk ⊢
      rcases List.mem_pair.mp hk with rfl | rfl
      · exact Or.inl hsmall
      · exact Or.inr hsmall
    have hkeys2 : ¬ ((jsObjectKeys (buildGroups d g v)).length ≠ 2) := by
      simp [hkeys]
    simp only [performIndependentTTest, hg, hv, hlen0, if_neg hkeys2, if_pos hdisj]
    simp

/-- Witness for C7: three distinct groups trigger the group-count
error. -/
theorem claim7_witness :
    threeGroupsDataset.columns.contains "g" = true ∧
    numericValues threeGroupsDataset "v" ≠ [] ∧
    (buildGroups threeGroupsDataset "g" "v").length ≠ 2 ∧
    performIndependentTTest threeGroupsDataset "g" "v" =
      .error (groupCountErrorMsg "g" (jsObjectKeys (buildGroups threeGroupsDataset "g" "v"))) :=
  ⟨by decide, by with_unfolding_all decide, by with_unfolding_all decide,
    (claim7_ttest_guards threeGroupsDataset "g" "v" (by decide) (by decide)
      (by with_unfolding_all decide)).1 (by with_unfolding_all decide)⟩

/-! ## C6: correlation of identical columns -/

/-- A nonempty pair extraction forces nonempty single-column
extractions. -/
theorem numericValues_ne_nil_of_pairs {d : Dataset} {c1 c2 : String}
    (h : extractPairs d c1 c2 ≠ []) :
    numericValues d c1 ≠ [] ∧ numericValues d c2 ≠ [] := by
  constructor
  · intro h1
    apply h
    apply List.filterMap_eq_nil_iff.mpr
    intro r hr
    have h1r := List.filterMap_eq_nil_iff.mp h1 r hr
    cases ha : (r c1).asNum? <;> cases hb : (r c2).asNum?
    · simp [ha, hb]
    · simp [ha, hb]
    · simp [ha, hb]
    · rw [ha] at h1r; cases h1r
  · intro h2
    apply h
    apply List.filterMap_eq_nil_iff.mpr
    intro r hr
    have h2r := List.filterMap_eq_nil_iff.mp h2 r hr
    cases ha : (r c1).asNum? <;> cases hb : (r c2).asNum?
    · simp [ha, hb]
    · simp [ha, hb]
    · simp [ha, hb]
    · rw [hb] at h2r; cases h2r

/-- A list with two distinct members is spread around its mean:
some member's squared deviation is positive, so the deviation sum is. -/
theorem sum_dev_sq_pos {l : List ℚ} {a : ℚ} (ha : a ∈ l) (hne : a ≠ mean l) :
    0 < (l.map (fun x => (x - mean l) ^ 2)).sum := by
  have hterm : (0 : ℚ) < (a - mean l) ^ 2 :=
    pow_two_pos_of_ne_zero (sub_ne_zero.mpr hne)
  have hmem : (a - mean l) ^ 2 ∈ l.map (fun x => (x - mean l) ^ 2) :=
    List.mem_map_of_mem _ ha
  have hnonneg : ∀ b ∈ l.map (fun x => (x - mean l) ^ 2), (0 : ℚ) ≤ b := by
    intro b hb
    obtain ⟨x, _, rfl⟩ := List.mem_map.mp hb
    positivity
  exact lt_of_lt_of_le hterm (List.single_le_sum hnonneg _ hmem)

/-- Two distinct members and length at least 2 give a positive sample
variance. -/
theorem sampleVariance_pos {l : List ℚ} {x y : ℚ}
    (hx : x ∈ l) (hy : y ∈ l) (hxy : x ≠ y) (hlen : 2 ≤ l.length) :
    0 < sampleVariance l := by
  rw [sampleVariance]
  apply div_pos
  · rcases eq_or_ne x (mean l) with hxm | hxm
    · refine sum_dev_sq_pos hy ?_
      intro hc
      exact hxy (hxm.trans hc.symm)
    · exact sum_dev_sq_pos hx hxm
  · have h2 : (2 : ℚ) ≤ (l.length : ℚ) := by exact_mod_cast hlen
    linarith

/-- Zipping a list with itself pairs each element with itself. -/
theorem zip_self {α : Type} (l : List α) : l.zip l = l.map (fun a => (a, a)) := by
  induction l with
  | nil => rfl
  | cons a t ih => simp [ih]

/-- The sample covariance of a list with itself is its sample variance. -/
theorem sampleCovariance_self (l : List ℚ) : sampleCovariance l l = sampleVariance l := by
  rw [sampleCovariance, sampleVariance, zip_self, List.map_map]
  congr 1
  congr 1
  apply List.map_congr_left
  intro a _
  show (a - mean l) * (a - mean l) = (a - mean l) ^ 2
  ring

/-- Pearson's r of a series against itself is exactly 1 once the sample
variance is positive. -/
theorem sampleCorrelation_self {l : List ℚ} (h : 0 < sampleVariance l) :
    sampleCorrelation l l = some 1 := by
  rw [sampleCorrelation, if_neg (by push_neg; exact ⟨h.ne', h.ne'⟩), sampleCovariance_self]
  have hR : (0 : ℝ) < (sampleVariance l : ℝ) := by exact_mod_cast h
  rw [div_div, Real.mul_self_sqrt hR.le, div_self hR.ne']

/-- Claim C6. For every dataset and column pair yielding at least 2
row-aligned pairs with identical values in both coordinates and at least
two distinct values, `calculateCorrelation` succeeds with coefficient
exactly 1 and significance `significant`; moreover this result's
significance is `significant` exactly when its coefficient is a real
number of absolute value above 0.5. -/
theorem claim6_identical_columns (d : Dataset) (c1 c2 : String)
    (hlen : 2 ≤ (extractPairs d c1 c2).length)
    (hsame : ∀ p ∈ extractPairs d c1 c2, p.1 = p.2)
    (hnc : ∃ p ∈ extractPairs d c1 c2, ∃ p' ∈ extractPairs d c1 c2, p.1 ≠ p'.1) :
    ∃ res, calculateCorrelation d c1 c2 = .ok res ∧
      res.coefficient = some 1 ∧
      res.significance = .significant ∧
      (res.significance = .significant ↔
        ∃ r, res.coefficient = some r ∧ 1/2 < |r|) := by
  have hpairs_ne : extractPairs d c1 c2 ≠ [] := by
    intro h0
    rw [h0] at hlen
    simp at hlen
  obtain ⟨hv1, hv2⟩ := numericValues_ne_nil_of_pairs hpairs_ne
  have hxy : (extractPairs d c1 c2).map Prod.snd = (extractPairs d c1 c2).map Prod.fst :=
    List.map_congr_left (fun p hp => (hsame p hp).symm)
  have hvar : 0 < sampleVariance ((extractPairs d c1 c2).map Prod.fst) := by
    obtain ⟨p, hp, p', hp', hne⟩ := hnc
    exact sampleVariance_pos (List.mem_map_of_mem _ hp) (List.mem_map_of_mem _ hp') hne
      (by rw [List.length_map]; exact hlen)
  have hcoef : sampleCorrelation ((extractPairs d c1 c2).map Prod.fst)
      ((extractPairs d c1 c2).map Prod.snd) = some 1 := by
    rw [hxy]
    exact sampleCorrelation_self hvar
  have hguard1 : ¬ ((numericValues d c1).length = 0 ∨ (numericValues d c2).length = 0) := by
    push_neg
    exact ⟨by simpa [List.length_eq_zero] using hv1,
      by simpa [List.length_eq_zero] using hv2⟩
  have hguard2 : ¬ ((extractPairs d c1 c2).length < 2) := not_lt.mpr hlen
  have hok : calculateCorrelation d c1 c2 = .ok
      { variable1 := c1
        variable2 := c2
        coefficient := sampleCorrelation ((extractPairs d c1 c2).map Prod.fst)
          ((extractPairs d c1 c2).map Prod.snd)
        significance := significanceOf (sampleCorrelation
          ((extractPairs d c1 c2).map Prod.fst) ((extractPairs d c1 c2).map Prod.snd)) } := by
    simp only [calculateCorrelation]
    rw [if_neg hguard1, if_neg hguard2]
  have hsig : significanceOf (sampleCorrelation ((extractPairs d c1 c2).map Prod.fst)
      ((extractPairs d c1 c2).map Prod.snd)) = .significant := by
    rw [hcoef, significanceOf]
    norm_num
  refine ⟨_, hok, hcoef, hsig, ?_⟩
  exact iff_of_true hsig ⟨1, hcoef, by norm_num⟩

/-- Witness for C6: Scenario C, the identical columns `[1,2,3]`. -/
theorem claim6_witness :
    2 ≤ (extractPairs scenarioC "x" "y").length ∧
    (∃ res, calculateCorrelation scenarioC "x" "y" = .ok res ∧
      res.coefficient = some 1 ∧
      res.significance = .significant ∧
      (res.significance = .significant ↔
        ∃ r, res.coefficient = some r ∧ 1/2 < |r|)) :=
  ⟨by with_unfolding_all decide,
    claim6_identical_columns scenarioC "x" "y" (by with_unfolding_all decide)
      (by with_unfolding_all decide) (by with_unfolding_all decide)⟩

/-! ## C9: contingency-table counts -/

/-- Reading back the key just written. -/
theorem objGet_objSet_self {α : Type} (l : List (String × α)) (k : String) (v : α) :
    objGet? (objSet l k v) k = some v := by
  induction l with
  | nil => simp [objSet, objGet?]
  | cons p rest ih =>
    obtain ⟨k', v'⟩ := p
    by_cases hk : k' = k
    · subst hk
      simp [objSet, objGet?]
    · simp [objSet, objGet?, hk, ih]

/-- Writing one key leaves every other key unchanged. -/
theorem objGet_objSet_ne {α : Type} (l : List (String × α)) {k k' : String} (v : α)
    (h : k ≠ k') : objGet? (objSet l k v) k' = objGet? l k' := by
  induction l with
  | nil => simp [objSet, objGet?, h]
  | cons p rest ih =>
    obtain ⟨k'', v''⟩ := p
    by_cases hk : k'' = k
    · subst hk
      simp [objSet, objGet?, h]
    · simp [objSet, objGet?, hk, ih]

/-- Writing a fresh key adds its value to the association sum. -/
theorem assocSum_objSet_fresh {α : Type} (f : α → ℕ) (l : List (String × α)) (k : String)
    (v : α) (h : objGet? l k = none) :
    assocSum f (objSet l k v) = assocSum f l + f v := by
  induction l with
  | nil => simp [objSet, assocSum]
  | cons p rest ih =>
    obtain ⟨k', v'⟩ := p
    rw [objGet?] at h
    by_cases hk : k' = k
    · rw [if_pos hk] at h
      cases h
    · rw [if_neg hk] at h
      have hih := ih h
      simp only [objSet, if_neg hk, assocSum, List.map_cons, List.sum_cons] at hih ⊢
      omega

/-- Overwriting an existing key exchanges the old value for the new one
in the association sum. -/
theorem assocSum_objSet_update {α : Type} (f : α → ℕ) (l : List (String × α)) (k : String)
    (v w : α) (h : objGet? l k = some w) :
    assocSum f (objSet l k v) + f w = assocSum f l + f v := by
  induction l with
  | nil => cases h
  | cons p rest ih =>
    obtain ⟨k', v'⟩ := p
    rw [objGet?] at h
    by_cases hk : k' = k
    · rw [if_pos hk] at h
      cases h
      simp only [objSet, if_pos hk, assocSum, List.map_cons, List.sum_cons]
      omega
    · rw [if_neg hk] at h
      have hih := ih h
      simp only [objSet, if_neg hk, assocSum, List.map_cons, List.sum_cons] at hih ⊢
      omega

/-- A `bumpCell` on a fresh outer key creates the one-cell row. -/
theorem bumpCell_fresh {t : List (String × List (String × ℕ))} {k : String} (ik : String)
    (h : objGet? t k = none) :
    bumpCell t k ik = objSet t k [(ik, 1)] := by
  rw [bumpCell, h]

/-- A `bumpCell` on an existing outer key increments the inner cell. -/
theorem bumpCell_update {t : List (String × List (String × ℕ))} {k : String} (ik : String)
    {row : List (String × ℕ)} (h : objGet? t k = some row) :
    bumpCell t k ik = objSet t k (objSet row ik ((objGet? row ik).getD 0 + 1)) := by
  rw [bumpCell, h]

/-- One `bumpCell` adds exactly 1 to the table's grand total. -/
theorem tableTotal_bumpCell (t : List (String × List (String × ℕ))) (k ik : String) :
    tableTotal (bumpCell t k ik) = tableTotal t + 1 := by
  cases hget : objGet? t k with
  | none =>
    rw [bumpCell_fresh ik hget, tableTotal, tableTotal, assocSum_objSet_fresh _ _ _ _ hget]
    simp [assocSum]
  | some row =>
    rw [bumpCell_update ik hget]
    have hnew : assocSum id (objSet row ik ((objGet? row ik).getD 0 + 1)) =
        assocSum id row + 1 := by
      cases hik : objGet? row ik with
      | none =>
        rw [show (none : Option ℕ).getD 0 + 1 = 1 from rfl,
          assocSum_objSet_fresh _ _ _ _ hik]
        rfl
      | some n =>
        have hupd := assocSum_objSet_update id row ik ((some n : Option ℕ).getD 0 + 1) n hik
        simp only [Option.getD_some, id_eq] at hupd ⊢
        omega
    have hupd := assocSum_objSet_update (assocSum id) t k
      (objSet row ik ((objGet? row ik).getD 0 + 1)) row hget
    rw [tableTotal, tableTotal]
    omega

/-- One `bumpCell` adds 1 to its own cell and leaves every other cell
unchanged. -/
theorem cellCount_bumpCell (t : List (String × List (String × ℕ))) (k ik k' ik' : String) :
    cellCount (bumpCell t k ik) k' ik' =
      cellCount t k' ik' + (if k' = k ∧ ik' = ik then 1 else 0) := by
  by_cases hk : k' = k
  · subst hk
    cases hget : objGet? t k' with
    | none =>
      rw [bumpCell_fresh ik hget, cellCount, objGet_objSet_self, cellCount, hget]
      by_cases hik : ik' = ik
      · subst hik
        simp [objGet?]
      · have hik2 : ¬ ik = ik' := fun h => hik h.symm
        simp [objGet?, hik, hik2]
    | some row =>
      rw [bumpCell_update ik hget, cellCount, objGet_objSet_self, cellCount, hget]
      by_cases hik : ik' = ik
      · subst hik
        rw [Option.some_bind, Option.some_bind, objGet_objSet_self]
        simp
      · have hik2 : ik ≠ ik' := fun h => hik h.symm
        rw [Option.some_bind, Option.some_bind, objGet_objSet_ne _ _ hik2]
        simp [hik]
  · have hkk : k ≠ k' := fun h => hk h.symm
    cases hget : objGet? t k with
    | none =>
      rw [bumpCell_fresh ik hget, cellCount, objGet_objSet_ne _ _ hkk, cellCount]
      simp [hk]
    | some row =>
      rw [bumpCell_update ik hget, cellCount, objGet_objSet_ne _ _ hkk, cellCount]
      simp [hk]

/-- Folding the contingency step over any row list adds one per
non-null-target row to the grand total. -/
theorem contingency_fold_total (target : String) (others : List String)
    (rows : List Row) :
    ∀ t, tableTotal (rows.foldl
        (fun table r =>
          if (r target).isNull then table
          else bumpCell table (contingencyKey others r) (r target).toKey) t) =
      tableTotal t + rows.countP (fun r => ! (r target).isNull) := by
  induction rows with
  | nil => intro t; simp
  | cons r rest ih =>
    intro t
    simp only [List.foldl_cons, List.countP_cons]
    by_cases hr : (r target).isNull = true
    · rw [if_pos hr, ih]
      simp [hr]
    · rw [if_neg hr, ih, tableTotal_bumpCell]
      have hr2 : (! (r target).isNull) = true := by
        simp at hr
        simp [hr]
      rw [hr2]
      simp only [if_true]
      ring

/-- Folding the contingency step counts, in each cell, the rows with that
grouping key and that stringified target value. -/
theorem contingency_fold_cell (target : String) (others : List String)
    (rows : List Row) (key ik : String) :
    ∀ t, cellCount (rows.foldl
        (fun table r =>
          if (r target).isNull then table
          else bumpCell table (contingencyKey others r) (r target).toKey) t) key ik =
      cellCount t key ik + rows.countP (fun r =>
        ! (r target).isNull && (contingencyKey others r == key) &&
          ((r target).toKey == ik)) := by
  induction rows with
  | nil => intro t; simp
  | cons r rest ih =>
    intro t
    simp only [List.foldl_cons, List.countP_cons]
    by_cases hr : (r target).isNull = true
    · rw [if_pos hr, ih]
      simp [hr]
    · rw [if_neg hr, ih, cellCount_bumpCell]
      have hr2 : (! (r target).isNull) = true := by
        simp at hr
        simp [hr]
      by_cases hkey : contingencyKey others r = key
      · by_cases hik : (r target).toKey = ik
        · rw [if_pos ⟨hkey.symm, hik.symm⟩]
          simp [hr2, hkey, hik]
          ring
        · have hik2 : ¬ (key = contingencyKey others r ∧ ik = (r target).toKey) := by
            intro hc
            exact hik hc.2.symm
          rw [if_neg hik2]
          simp [hr2, hkey, hik]
      · have hkey2 : ¬ (key = contingencyKey others r ∧ ik = (r target).toKey) := by
          intro hc
          exact hkey hc.1.symm
        rw [if_neg hkey2]
        simp [hr2, hkey]

/-- Claim C9. For a target column and one or more grouping columns,
`performChiSquaredWithPostHoc` builds the contingency table keyed by the
joined grouping values, skipping null-target rows; each cell counts the
rows with that key and that stringified target value, and the cell
counts summed over all cells equal the number of rows with a non-null
target value. -/
theorem claim9_contingency (d : Dataset) (target c : String) (others : List String) :
    ∃ t, performChiSquaredTable d (target :: c :: others) = some t ∧
      tableTotal t = d.rows.countP (fun r => ! (r target).isNull) ∧
      ∀ key ik, cellCount t key ik = d.rows.countP (fun r =>
        ! (r target).isNull && (contingencyKey (c :: others) r == key) &&
          ((r target).toKey == ik)) := by
  refine ⟨buildContingencyTable d target (c :: others), rfl, ?_, ?_⟩
  · rw [buildContingencyTable, contingency_fold_total]
    simp [tableTotal, assocSum]
  · intro key ik
    rw [buildContingencyTable, contingency_fold_cell]
    simp [cellCount, objGet?]

/-! ## C5: histogram binning -/

/-- The `Math.min` folding is below its initial value. -/
theorem foldl_min_le_init (l : List ℚ) : ∀ a : ℚ, l.foldl min a ≤ a := by
  induction l with
  | nil => intro a; simp
  | cons x t ih => intro a; exact le_trans (ih (min a x)) (min_le_left a x)

/-- The `Math.min` folding is below every member. -/
theorem foldl_min_le_mem (l : List ℚ) : ∀ a : ℚ, ∀ x ∈ l, l.foldl min a ≤ x := by
  induction l with
  | nil => intro a x hx; cases hx
  | cons y t ih =>
    intro a x hx
    rcases List.mem_cons.mp hx with rfl | hx
    · exact le_trans (foldl_min_le_init t (min a x)) (min_le_right a x)
    · exact ih (min a y) x hx

/-- The minimum `minQ` bounds every member from below. -/
theorem minQ_le {l : List ℚ} {x : ℚ} (hx : x ∈ l) : minQ l ≤ x :=
  foldl_min_le_mem l _ x hx

/-- The `Math.max` folding is above its initial value. -/
theorem le_foldl_max_init (l : List ℚ) : ∀ a : ℚ, a ≤ l.foldl max a := by
  induction l with
  | nil => intro a; simp
  | cons x t ih => intro a; exact le_trans (le_max_left a x) (ih (max a x))

/-- The `Math.max` folding is above every member. -/
theorem le_foldl_max_mem (l : List ℚ) : ∀ a : ℚ, ∀ x ∈ l, x ≤ l.foldl max a := by
  induction l with
  | nil => intro a x hx; cases hx
  | cons y t ih =>
    intro a x hx
    rcases List.mem_cons.mp hx with rfl | hx
    · exact le_trans (le_max_right a x) (le_foldl_max_init t (max a x))
    · exact ih (max a y) x hx

/-- The maximum `maxQ` bounds every member from above. -/
theorem le_maxQ {l : List ℚ} {x : ℚ} (hx : x ∈ l) : x ≤ maxQ l :=
  le_foldl_max_mem l _ x hx

/-- The `Math.max` folding lands on the initial value or a member. -/
theorem foldl_max_mem (l : List ℚ) : ∀ a : ℚ, l.foldl max a ∈ a :: l := by
  induction l with
  | nil => intro a; simp
  | cons x t ih =>
    intro a
    rcases List.mem_cons.mp (ih (max a x)) with h | h
    · rw [List.foldl_cons, h]
      rcases max_choice a x with hm | hm <;> rw [hm] <;> simp
    · rw [List.foldl_cons]
      right
      exact List.mem_cons_of_mem x h

/-- The maximum of a nonempty list is one of its members. -/
theorem maxQ_mem {l : List ℚ} (h : l ≠ []) : maxQ l ∈ l := by
  cases l with
  | nil => exact absurd rfl h
  | cons x t =>
    have hmem := foldl_max_mem t (max x x)
    rw [max_self] at hmem
    simpa [maxQ] using hmem

/-- Summing a pointwise sum splits. -/
theorem sum_map_add {α : Type} (f g : α → ℕ) (l : List α) :
    (l.map (fun a => f a + g a)).sum = (l.map f).sum + (l.map g).sum := by
  induction l with
  | nil => rfl
  | cons a t ih =>
    simp only [List.map_cons, List.sum_cons, ih]
    ring

/-- Summing indicator values counts. -/
theorem sum_map_ite {α : Type} (p : α → Bool) (l : List α) :
    (l.map (fun a => if p a then 1 else 0)).sum = l.countP p := by
  induction l with
  | nil => rfl
  | cons a t ih =>
    rw [List.map_cons, List.sum_cons, List.countP_cons, ih]
    cases h : p a
    · simp [h]
    · simp [h]
      ring

/-- A constant-zero map sums to zero. -/
theorem sum_map_zero {α : Type} (l : List α) : (l.map (fun _ => (0 : ℕ))).sum = 0 := by
  induction l <;> simp [*]

/-- A constant-one map sums to the length. -/
theorem sum_map_one {α : Type} (l : List α) : (l.map (fun _ => (1 : ℕ))).sum = l.length := by
  induction l with
  | nil => rfl
  | cons a t ih => simp [ih, Nat.add_comm]

/-- Double counting: summing per-`a` counts over `l2` equals summing
per-`b` counts over `l1`. -/
theorem sum_countP_comm {α β : Type} (p : α → β → Bool) (l1 : List α) (l2 : List β) :
    (l1.map (fun a => l2.countP (p a))).sum =
      (l2.map (fun b => l1.countP (fun a => p a b))).sum := by
  induction l2 with
  | nil =>
    have h0 : (l1.map (fun a => List.countP (p a) [])).sum =
        (l1.map (fun _ => (0 : ℕ))).sum := by simp
    rw [h0, sum_map_zero]
    simp
  | cons b t ih =>
    have hstep : (l1.map (fun a => List.countP (p a) (b :: t))).sum =
        (l1.map (fun a => (if p a b then 1 else 0) + List.countP (p a) t)).sum := by
      apply congrArg
      apply List.map_congr_left
      intro a _
      rw [List.countP_cons]
      ring
    have hsplit : (l1.map (fun a => (if p a b then 1 else 0) + List.countP (p a) t)).sum =
        (l1.map (fun a => if p a b then 1 else 0)).sum +
          (l1.map (fun a => List.countP (p a) t)).sum :=
      sum_map_add _ _ _
    rw [hstep, hsplit, sum_map_ite, ih, List.map_cons, List.sum_cons]

/-- A predicate holding at exactly one member of a duplicate-free list is
counted once. -/
theorem countP_eq_one_of_unique {α : Type} (p : α → Bool) :
    ∀ (l : List α) (a : α), l.Nodup → a ∈ l → p a = true →
      (∀ b ∈ l, p b = true → b = a) → l.countP p = 1 := by
  intro l
  induction l with
  | nil => intro a _ ha; cases ha
  | cons x t ih =>
    intro a hnd hmem hpa huniq
    obtain ⟨hxt, hndt⟩ := List.nodup_cons.mp hnd
    rw [List.countP_cons]
    rcases List.mem_cons.mp hmem with rfl | hmem
    · rw [hpa]
      have ht : t.countP p = 0 := by
        rw [List.countP_eq_zero]
        intro b hb hpb
        exact hxt ((huniq b (List.mem_cons_of_mem _ hb) hpb) ▸ hb)
      rw [ht]
      simp
    · have hpx : ¬ p x = true := by
        intro hpx
        have hxa := huniq x (List.mem_cons_self x t) hpx
        exact hxt (hxa ▸ hmem)
      rw [ih a hndt hmem hpa (fun b hb hpb => huniq b (List.mem_cons_of_mem _ hb) hpb)]
      simp [hpx]

/-- At most one bin admits a given value: two bins with indices `i < j`
cannot both contain `v`, because bin `i`'s (strict) upper bound is below
bin `j`'s lower bound. -/
theorem binPred_disjoint {lo w v : ℚ} {N i j : ℕ} (hw : 0 ≤ w)
    (hij : i < j) (hjN : j < N)
    (hbi : binPred lo w N i v = true) (hbj : binPred lo w N j v = true) : False := by
  rw [binPred, Bool.and_eq_true] at hbi hbj
  have hiN1 : ¬ i = N - 1 := by omega
  rw [if_neg hiN1] at hbi
  have h1 : v < lo + (i + 1 : ℕ) * w := by
    have := hbi.2
    simpa using this
  have h2 : lo + (j : ℕ) * w ≤ v := by
    have := hbj.1
    simpa using this
  have hcast : ((i + 1 : ℕ) : ℚ) ≤ (j : ℚ) := by exact_mod_cast hij
  have hmul : ((i + 1 : ℕ) : ℚ) * w ≤ (j : ℚ) * w := mul_le_mul_of_nonneg_right hcast hw
  push_cast at h1 h2 hmul
  linarith

/-- Each value between the minimum and the maximum lies in exactly one
bin (the last bin's inclusive upper bound catching the maximum). -/
theorem binPred_countP_one {lo hi : ℚ} {N : ℕ} (hN : 1 ≤ N) (hlh : lo ≤ hi)
    {v : ℚ} (hv1 : lo ≤ v) (hv2 : v ≤ hi) :
    (List.range N).countP (fun i => binPred lo ((hi - lo) / N) N i v) = 1 := by
  set w : ℚ := (hi - lo) / N with hw_def
  have hN0 : (N : ℚ) ≠ 0 := Nat.cast_ne_zero.mpr (by omega)
  have hw : 0 ≤ w := div_nonneg (sub_nonneg.mpr hlh) (by positivity)
  have hsN : lo + (N : ℚ) * w = hi := by
    rw [hw_def]
    field_simp
  -- existence: an index j < N whose bin contains v
  have hex : ∃ j, j < N ∧ binPred lo w N j v = true := by
    by_cases hcase : w = 0 ∨ v = hi
    · refine ⟨N - 1, by omega, ?_⟩
      rw [binPred, if_pos rfl, Bool.and_eq_true, decide_eq_true_iff, decide_eq_true_iff]
      have hcast1 : ((N - 1 : ℕ) : ℚ) = (N : ℚ) - 1 := by
        have : (1 : ℕ) ≤ N := hN
        push_cast [Nat.cast_sub this]
        ring
      constructor
      · rcases hcase with hw0 | hvhi
        · rw [hw0]
          simpa using hv1
        · rw [hvhi, ← hsN, hcast1]
          have : ((N : ℚ) - 1) * w ≤ (N : ℚ) * w := by nlinarith
          linarith
      · rw [hcast1]
        have hring : ((N : ℚ) - 1 + 1) * w = (N : ℚ) * w := by ring
        rw [hring, hsN]
        exact hv2
    · push_neg at hcase
      obtain ⟨hw0, hvhi⟩ := hcase
      have hwpos : 0 < w := lt_of_le_of_ne hw (Ne.symm hw0)
      have hvlt : v < hi := lt_of_le_of_ne hv2 hvhi
      set t : ℚ := (v - lo) / w with ht_def
      have ht0 : 0 ≤ t := div_nonneg (sub_nonneg.mpr hv1) hw
      have htN : t < N := by
        rw [ht_def, div_lt_iff₀ hwpos]
        have : v - lo < hi - lo := by linarith
        rw [← hsN] at this
        linarith
      have hfl0 : 0 ≤ ⌊t⌋ := Int.floor_nonneg.mpr ht0
      set j : ℕ := (⌊t⌋).toNat with hj_def
      have hjz : (j : ℤ) = ⌊t⌋ := Int.toNat_of_nonneg hfl0
      have hjq : (j : ℚ) ≤ t := by
        rw [show ((j : ℚ)) = ((j : ℤ) : ℚ) from by push_cast; ring, hjz]
        exact Int.floor_le t
      have hjq1 : t < (j : ℚ) + 1 := by
        rw [show ((j : ℚ)) = ((j : ℤ) : ℚ) from by push_cast; ring, hjz]
        exact Int.lt_floor_add_one t
      have hjN : j < N := by
        have : (⌊t⌋ : ℚ) < (N : ℚ) := lt_of_le_of_lt (Int.floor_le t) htN
        have h2 : ⌊t⌋ < (N : ℤ) := by exact_mod_cast this
        omega
      have hlow : lo + (j : ℚ) * w ≤ v := by
        have : (j : ℚ) * w ≤ t * w := mul_le_mul_of_nonneg_right hjq hw
        rw [ht_def, div_mul_cancel₀ _ hw0] at this
        linarith
      have hhigh : v < lo + ((j : ℚ) + 1) * w := by
        have : t * w < ((j : ℚ) + 1) * w := by nlinarith
        rw [ht_def, div_mul_cancel₀ _ hw0] at this
        linarith
      refine ⟨j, hjN, ?_⟩
      rw [binPred, Bool.and_eq_true, decide_eq_true_iff]
      refine ⟨by linarith, ?_⟩
      by_cases hjlast : j = N - 1
      · rw [if_pos hjlast, decide_eq_true_iff]
        linarith
      · rw [if_neg hjlast, decide_eq_true_iff]
        linarith
  obtain ⟨j, hjN, hbj⟩ := hex
  refine countP_eq_one_of_unique _ (List.range N) j (List.nodup_range N)
    (List.mem_range.mpr hjN) hbj ?_
  intro b hb hpb
  rcases lt_trichotomy b j with hbj2 | hbj2 | hbj2
  · exact absurd (binPred_disjoint hw hbj2 hjN hpb hbj) (fun f => f)
  · exact hbj2
  · exact absurd (binPred_disjoint hw hbj2 (List.mem_range.mp hb) hbj hpb) (fun f => f)

/-- The `decide` of a conjunction is the Boolean conjunction of the two. -/
theorem decide_and_split (p q : Prop) [Decidable p] [Decidable q] :
    decide (p ∧ q) = (decide p && decide q) := by
  by_cases hp : p <;> by_cases hq : q <;> simp [hp, hq]

/-- Indexing into a mapped range. -/
theorem getD_map_range {β : Type} (f : ℕ → β) {N i : ℕ} (h : i < N) (b : β) :
    ((List.range N).map f).getD i b = f i := by
  rw [List.getD_eq_getElem?_getD, List.getElem?_map, List.getElem?_range h]
  rfl

/-- The bin counts of the histogram partition the values: they sum to the
total number of numeric values. -/
theorem histogram_counts_sum {values : List ℚ} {N : ℕ} (hN : 1 ≤ N) (hne : values ≠ []) :
    ((List.range N).map (fun i =>
      (values.filter
        (binPred (minQ values) ((maxQ values - minQ values) / N) N i)).length)).sum =
      values.length := by
  have hlh : minQ values ≤ maxQ values := by
    obtain ⟨x, hx⟩ := List.exists_mem_of_ne_nil values hne
    exact le_trans (minQ_le hx) (le_maxQ hx)
  have h1 : ((List.range N).map (fun i =>
      (values.filter
        (binPred (minQ values) ((maxQ values - minQ values) / N) N i)).length)).sum =
      ((List.range N).map (fun i =>
        values.countP (binPred (minQ values) ((maxQ values - minQ values) / N) N i))).sum := by
    apply congrArg
    apply List.map_congr_left
    intro i _
    rw [List.countP_eq_length_filter]
  rw [h1, sum_countP_comm]
  have h2 : (values.map (fun v => (List.range N).countP
      (fun i => binPred (minQ values) ((maxQ values - minQ values) / N) N i v))).sum =
      (values.map (fun _ => (1 : ℕ))).sum := by
    apply congrArg
    apply List.map_congr_left
    intro v hv
    exact binPred_countP_one hN hlh (minQ_le hv) (le_maxQ hv)
  rw [h2, sum_map_one]

/-- Claim C5. For every dataset, column with at least one numeric value and
bin count `N ≥ 1`, `generateHistogram` returns `N` bins; bin `i` counts
the values in `[min + i·width, min + (i+1)·width)` for `i < N − 1`, while
the last bin's upper bound is inclusive and equals the maximum, so the
maximum value is counted (the last bin is nonempty); and the bin counts
sum exactly to the number of numeric values in the column. -/
theorem claim5_histogram (d : Dataset) (col : String) (N : ℕ)
    (hN : 1 ≤ N) (hne : numericValues d col ≠ []) :
    ∃ hist, generateHistogram d col N = .ok hist ∧
      hist.length = N ∧
      (hist.map (fun b => b.count)).sum = (numericValues d col).length ∧
      (∀ i : ℕ, i + 1 < N →
        (hist.getD i ⟨"", 0⟩).count = (numericValues d col).countP (fun v =>
          decide (minQ (numericValues d col) +
              i * ((maxQ (numericValues d col) - minQ (numericValues d col)) / N) ≤ v ∧
            v < minQ (numericValues d col) +
              (i + 1) * ((maxQ (numericValues d col) - minQ (numericValues d col)) / N)))) ∧
      (hist.getD (N - 1) ⟨"", 0⟩).count = (numericValues d col).countP (fun v =>
        decide (minQ (numericValues d col) +
            ((N : ℚ) - 1) * ((maxQ (numericValues d col) - minQ (numericValues d col)) / N) ≤ v ∧
          v ≤ maxQ (numericValues d col))) ∧
      0 < (hist.getD (N - 1) ⟨"", 0⟩).count := by
  have hlen0 : ¬ ((numericValues d col).length = 0) := by
    simpa [List.length_eq_zero] using hne
  have hlh : minQ (numericValues d col) ≤ maxQ (numericValues d col) := by
    obtain ⟨x, hx⟩ := List.exists_mem_of_ne_nil _ hne
    exact le_trans (minQ_le hx) (le_maxQ hx)
  have hw : 0 ≤ (maxQ (numericValues d col) - minQ (numericValues d col)) / N :=
    div_nonneg (sub_nonneg.mpr hlh) (by positivity)
  have hN0 : (N : ℚ) ≠ 0 := Nat.cast_ne_zero.mpr (by omega)
  have hsN : minQ (numericValues d col) +
      (N : ℚ) * ((maxQ (numericValues d col) - minQ (numericValues d col)) / N) =
      maxQ (numericValues d col) := by
    field_simp
  have hcastN1 : ((N - 1 : ℕ) : ℚ) = (N : ℚ) - 1 := by
    have h1 : (1 : ℕ) ≤ N := hN
    push_cast [Nat.cast_sub h1]
    ring
  have hok : generateHistogram d col N = .ok ((List.range N).map (fun (i : ℕ) =>
      { range := qToFixed2 (minQ (numericValues d col) +
            i * ((maxQ (numericValues d col) - minQ (numericValues d col)) / N)) ++ "-" ++
          qToFixed2 (minQ (numericValues d col) +
            (i + 1) * ((maxQ (numericValues d col) - minQ (numericValues d col)) / N))
        count := ((numericValues d col).filter
          (binPred (minQ (numericValues d col))
            ((maxQ (numericValues d col) - minQ (numericValues d col)) / N) N i)).length })) := by
    simp only [generateHistogram]
    rw [if_neg hlen0]
  have hlast : ∀ v ∈ numericValues d col,
      binPred (minQ (numericValues d col))
          ((maxQ (numericValues d col) - minQ (numericValues d col)) / N) N (N - 1) v = true ↔
        (decide (minQ (numericValues d col) +
            ((N : ℚ) - 1) * ((maxQ (numericValues d col) - minQ (numericValues d col)) / N) ≤ v ∧
          v ≤ maxQ (numericValues d col)) = true) := by
    intro v _
    rw [binPred, if_pos rfl, decide_and_split, hcastN1]
    have hend : minQ (numericValues d col) + ((N : ℚ) - 1 + 1) *
        ((maxQ (numericValues d col) - minQ (numericValues d col)) / N) =
        maxQ (numericValues d col) := by
      rw [show ((N : ℚ) - 1 + 1) = (N : ℚ) from by ring]
      exact hsN
    rw [hend]
  refine ⟨_, hok, by simp, ?_, ?_, ?_, ?_⟩
  · rw [List.map_map]
    exact histogram_counts_sum hN hne
  · intro i hi1
    rw [getD_map_range _ (by omega) _]
    show ((numericValues d col).filter _).length = _
    rw [← List.countP_eq_length_filter]
    apply List.countP_congr
    intro v _
    rw [binPred, if_neg (by omega), decide_and_split]
  · rw [getD_map_range _ (by omega) _]
    show ((numericValues d col).filter _).length = _
    rw [← List.countP_eq_length_filter]
    exact List.countP_congr hlast
  · rw [getD_map_range _ (by omega) _]
    show 0 < ((numericValues d col).filter _).length
    rw [← List.countP_eq_length_filter]
    apply List.countP_pos_iff.mpr
    refine ⟨maxQ (numericValues d col), maxQ_mem hne, ?_⟩
    rw [(hlast _ (maxQ_mem hne))]
    rw [decide_eq_true_iff]
    constructor
    · have hmul : ((N : ℚ) - 1) *
          ((maxQ (numericValues d col) - minQ (numericValues d col)) / N) ≤
          (N : ℚ) * ((maxQ (numericValues d col) - minQ (numericValues d col)) / N) := by
        nlinarith
      linarith
    · exact le_refl _

/-- Witness for C5: Scenario B, the histogram of `[0, 10]` with 5 bins. -/
theorem claim5_witness :
    1 ≤ 5 ∧ numericValues scenarioB "v" ≠ [] ∧
    (∃ hist, generateHistogram scenarioB "v" 5 = .ok hist ∧
      hist.length = 5 ∧
      (hist.map (fun b => b.count)).sum = (numericValues scenarioB "v").length ∧
      (∀ i : ℕ, i + 1 < 5 →
        (hist.getD i ⟨"", 0⟩).count = (numericValues scenarioB "v").countP (fun v =>
          decide (minQ (numericValues scenarioB "v") +
              i * ((maxQ (numericValues scenarioB "v") - minQ (numericValues scenarioB "v")) / 5) ≤ v ∧
            v < minQ (numericValues scenarioB "v") +
              (i + 1) * ((maxQ (numericValues scenarioB "v") - minQ (numericValues scenarioB "v")) / 5)))) ∧
      (hist.getD (5 - 1) ⟨"", 0⟩).count = (numericValues scenarioB "v").countP (fun v =>
        decide (minQ (numericValues scenarioB "v") +
            ((5 : ℚ) - 1) * ((maxQ (numericValues scenarioB "v") - minQ (numericValues scenarioB "v")) / 5) ≤ v ∧
          v ≤ maxQ (numericValues scenarioB "v"))) ∧
      0 < (hist.getD (5 - 1) ⟨"", 0⟩).count) :=
  ⟨by decide, by with_unfolding_all decide,
    claim5_histogram scenarioB "v" 5 (by decide) (by with_unfolding_all decide)⟩

end Nemo
